import Mathlib

/-!
Verification of the telemetry export subsystem of `log-genie`
(`pkg/telemetry/telemetry.go`), as a shallow embedding in Lean 4.

Modelling conventions:
* Go strings are Lean `String`s; character-level reasoning uses `String.data`.
* `atomic.Int64` log counter is an `Int` (its increments are reset every
  reporting interval, so 64-bit wraparound is unreachable and not modelled).
* `time.Time` instants are `Int` nanosecond counts; `Duration.Seconds()`
  (a `float64`) is modelled exactly in `ℚ` by dividing by 10^9.
* Go `nil` pointers/functions are `Option`; calling a `nil` function or
  dereferencing `nil` is a `.error` (a Go panic) in functions returning
  `Except String _`.
* The OTel SDK `LoggerProvider` is external to the repository; its
  `Shutdown` contract (first call performs the bounded final flush and
  stops, later calls are no-ops) is modelled by `LoggerProviderState`.
* `float64` attribute payloads are carried as uninterpreted 64-bit
  patterns (`Float64Bits`); the code never computes with them.
* Go `map` iteration order is unspecified; a map is modelled as an
  association list in some enumeration order.
-/

namespace LogGenie

/-- `strings.HasPrefix` on character lists: first argument is the string,
second the candidate leading segment. -/
def hasPrefixL (l p : List Char) : Bool :=
  match p, l with
  | [], _ => true
  | _ :: _, [] => false
  | q :: qs, c :: cs => c = q && hasPrefixL cs qs

/-- `strings.SplitN(s, "/", 2)`: the characters before the first `'/'`,
and `some` of the characters after it (or `none` when there is no `'/'`). -/
def splitN2Slash : List Char → List Char × Option (List Char)
  | [] => ([], none)
  | c :: cs =>
    if c = '/' then ([], some cs)
    else
      let r := splitN2Slash cs
      (c :: r.1, r.2)

/-- The scheme-stripping step of `parseEndpoint`: drop a leading
`http://` or `https://` (`strings.TrimPrefix`). -/
def stripSchemeL (l : List Char) : List Char :=
  if hasPrefixL l "http://".data then l.drop 7
  else if hasPrefixL l "https://".data then l.drop 8
  else l

/-- `parseEndpoint` on character lists: strip the scheme, split at the
first `'/'`; the part before it is `hostPort`, the part after it,
re-prefixed with `'/'`, is `path` (empty when there is no `'/'`). -/
def parseEndpointL (l : List Char) : List Char × List Char :=
  let l' := stripSchemeL l
  match splitN2Slash l' with
  | (h, none) => (h, [])
  | (h, some rest) => (h, '/' :: rest)

/-- `parseEndpoint(endpoint string) (hostPort, path string)` from
`telemetry.go`. -/
def parseEndpoint (endpoint : String) : String × String :=
  let r := parseEndpointL endpoint.data
  (⟨r.1⟩, ⟨r.2⟩)

/-- String-level scheme stripping, for stating properties. -/
def stripScheme (s : String) : String := ⟨stripSchemeL s.data⟩

/-- An uninterpreted IEEE-754 `float64` bit pattern.  The telemetry code
only passes such values through, never computes with them. -/
structure Float64Bits where
  bits : Nat
  deriving DecidableEq, Repr

/-- A Go `interface{}` value as it can appear in the `fields` map of
`SendLog`.  `other` carries the `fmt.Sprintf("%v", val)` rendering of a
value of any type outside the five scalar cases, which is all the code
ever looks at for such values. -/
inductive GoValue where
  | str (s : String)
  | int (n : Int)
  | int64 (n : Int)
  | float64 (f : Float64Bits)
  | bool (b : Bool)
  | other (rendered : String)
  deriving DecidableEq, Repr

/-- The payload of an OTel `log.KeyValue` attribute. -/
inductive AttrValue where
  | str (s : String)
  | int64 (n : Int)
  | float64 (f : Float64Bits)
  | bool (b : Bool)
  deriving DecidableEq, Repr

/-- OTel `log.KeyValue`. -/
structure KeyValue where
  key : String
  value : AttrValue
  deriving DecidableEq, Repr

/-- OTel `log.String`. -/
def logStringKV (k v : String) : KeyValue := ⟨k, .str v⟩

/-- OTel `log.Int64`. -/
def logInt64KV (k : String) (v : Int) : KeyValue := ⟨k, .int64 v⟩

/-- OTel `log.Int`, which wraps its argument as an int64 value. -/
def logIntKV (k : String) (v : Int) : KeyValue := logInt64KV k v

/-- OTel `log.Float64`. -/
def logFloat64KV (k : String) (v : Float64Bits) : KeyValue := ⟨k, .float64 v⟩

/-- OTel `log.Bool`. -/
def logBoolKV (k : String) (v : Bool) : KeyValue := ⟨k, .bool v⟩

/-- The `switch val := v.(type)` over a field value in `SendLog`
(lines 326-339 of `telemetry.go`). -/
def convertField (k : String) (v : GoValue) : KeyValue :=
  match v with
  | .str s => logStringKV k s
  | .int n => logIntKV k n
  | .int64 n => logInt64KV k n
  | .float64 f => logFloat64KV k f
  | .bool b => logBoolKV k b
  | .other rendered => logStringKV k rendered

/-- The `switch level` in `SendLog`: OTel numeric severities
(Debug 5, Info 9, Warn 13, Error 17); the switch has no default branch,
so any other level leaves the `log.Severity` zero value 0. -/
def severityFor (level : String) : Nat :=
  if level = "debug" then 5
  else if level = "info" then 9
  else if level = "warn" then 13
  else if level = "error" then 17
  else 0

/-- An OTel `log.Record` as populated by `SendLog`. -/
structure LogRecord where
  timestamp : Int
  severity : Nat
  severityText : String
  body : String
  attributes : List KeyValue
  deriving DecidableEq, Repr

/-- The external `sdklog.LoggerProvider` (with its batch processor), by
its documented `Shutdown` contract: the first `Shutdown` call performs
the bounded final flush and stops it, later calls are no-ops. -/
structure LoggerProviderState where
  stopped : Bool
  deriving DecidableEq, Repr

/-- `telemetry.Config`. -/
structure Config where
  Enabled : Bool
  Endpoint : String
  ShowResponses : Bool
  deriving DecidableEq, Repr

/-- The observable state of a `telemetry.Provider`.  `cancel`, `logger`
and `logProvider` are `none` exactly when the corresponding Go field is
`nil`.  `exporterShutdownCount` counts how many times the underlying
transport has actually been closed (for the no-double-close property).
The unused `mutex` field and the `httpClient` used only by the
diagnostic prober are not part of the observable state. -/
structure ProviderState where
  enabled : Bool
  endpoint : String
  hostPort : String
  path : String
  cancel : Option Unit
  logger : Option Unit
  logProvider : Option LoggerProviderState
  ctxCancelled : Bool
  logCount : Int
  lastReport : Int
  exporterShutdownCount : Nat
  showResponses : Bool
  deriving DecidableEq, Repr

/-- `New(config Config)`: the state of the returned Provider.  When
disabled, construction returns before creating the cancellation context,
exporter, logger provider and logger.  Exporter construction against the
network is assumed to succeed (its failure is an environment error, not
program logic). -/
def NewProvider (config : Config) : ProviderState :=
  let hp := parseEndpoint config.Endpoint
  let p : ProviderState :=
    { enabled := config.Enabled
      endpoint := config.Endpoint
      hostPort := hp.1
      path := hp.2
      cancel := none
      logger := none
      logProvider := none
      ctxCancelled := false
      logCount := 0
      lastReport := 0
      exporterShutdownCount := 0
      showResponses := config.ShowResponses }
  if !p.enabled then p
  else
    { p with
      cancel := some ()
      logger := some ()
      logProvider := some { stopped := false }
      logCount := 0 }

/-- The error message returned by `SendLog` on a disabled or
uninitialized provider. -/
def notEnabledMsg : String := "telemetry is not enabled or logger is not initialized"

/-- `Provider.SendLog(level, message, fields)`.  `now` is the wall-clock
instant read by `record.SetTimestamp(time.Now())`; `fields` is the Go
map in its (unspecified) iteration order.  Returns the updated provider
state together with either the emitted record or the error. -/
def SendLog (p : ProviderState) (now : Int) (level message : String)
    (fields : List (String × GoValue)) : ProviderState × Except String LogRecord :=
  if !p.enabled || !p.logger.isSome then
    (p, .error notEnabledMsg)
  else
    let record : LogRecord :=
      { timestamp := now
        severity := severityFor level
        severityText := level
        body := message
        attributes := fields.map (fun kv => convertField kv.1 kv.2) }
    ({ p with logCount := p.logCount + 1 }, .ok record)

/-- `Provider.GetLogCount()`. -/
def GetLogCount (p : ProviderState) : Int := p.logCount

/-- `Provider.IsEnabled()`. -/
def IsEnabled (p : ProviderState) : Bool := p.enabled

/-- The observation surfaced by one report of `reportLogsSent`. -/
structure Observation where
  count : Int
  elapsedSeconds : ℚ
  rate : ℚ
  deriving DecidableEq, Repr

/-- One tick of the `reportLogsSent` loop body (`case <-ticker.C`),
at wall-clock instant `now` (nanoseconds): load the counter, compute
`elapsed := now.Sub(p.lastReport).Seconds()`, and, when `elapsed > 0`,
surface the `{count, elapsed, rate}` observation, store 0 in the counter
and set `lastReport := now`.  The loop only runs on enabled providers
(it returns immediately otherwise, before any tick). -/
def reportTick (p : ProviderState) (now : Int) : ProviderState × Option Observation :=
  let count := p.logCount
  let elapsed : ℚ := ((now - p.lastReport : Int) : ℚ) / 1000000000
  if 0 < elapsed then
    ({ p with logCount := 0, lastReport := now },
      some { count := count, elapsedSeconds := elapsed, rate := (count : ℚ) / elapsed })
  else
    (p, none)

/-- `Provider.Shutdown()`: call `cancel` if non-nil (calling a nil
function would panic, modelled as `.error`), then shut down the logger
provider if non-nil, which performs the bounded final flush and closes
the underlying transport only if it was not already stopped. -/
def Shutdown (p : ProviderState) : Except String ProviderState :=
  let step1 : Except String ProviderState :=
    if p.cancel.isSome then
      match p.cancel with
      | none => Except.error "panic: call of nil function"
      | some _ => Except.ok { p with ctxCancelled := true }
    else
      Except.ok p
  match step1 with
  | Except.error e => Except.error e
  | Except.ok p1 =>
    match p1.logProvider with
    | none => Except.ok p1
    | some lp =>
      if lp.stopped then
        Except.ok { p1 with logProvider := some lp }
      else
        Except.ok
          { p1 with
            logProvider := some { stopped := true }
            exporterShutdownCount := p1.exporterShutdownCount + 1 }

/-- The provider state after a (non-panicking) `Shutdown`, as a total
function: a proof-side mirror of `Shutdown` (see `shutdown_eq_pure`). -/
def shutdownPure (p : ProviderState) : ProviderState :=
  let p1 := if p.cancel.isSome then { p with ctxCancelled := true } else p
  match p1.logProvider with
  | none => p1
  | some lp =>
    if lp.stopped then { p1 with logProvider := some lp }
    else
      { p1 with
        logProvider := some { stopped := true }
        exporterShutdownCount := p1.exporterShutdownCount + 1 }

/-- A concrete disabled provider, as built by `New` with `Enabled = false`. -/
def disabledP : ProviderState := NewProvider ⟨false, "collector:4318", false⟩

/-- A concrete enabled provider, as built by `New` with `Enabled = true`. -/
def enabledP : ProviderState := NewProvider ⟨true, "collector:4318", false⟩

/-- A concrete enabled provider that has sent 5 logs, with
`lastReport` at instant 10 ns. -/
def reportExState : ProviderState :=
  { enabled := true
    endpoint := "collector:4318"
    hostPort := "collector:4318"
    path := ""
    cancel := some ()
    logger := some ()
    logProvider := some ⟨false⟩
    ctxCancelled := false
    logCount := 5
    lastReport := 10
    exporterShutdownCount := 0
    showResponses := false }

end LogGenie

namespace LogGenie


lemma hasPrefixL_append (p r : List Char) : hasPrefixL (p ++ r) p = true := by
  induction p with
  | nil => simp [hasPrefixL]
  | cons c cs ih => simp [hasPrefixL, ih]

lemma hasPrefixL_mem {l p : List Char} (h : hasPrefixL l p = true) :
    ∀ c ∈ p, c ∈ l := by
  induction p generalizing l with
  | nil => simp
  | cons q qs ih =>
    cases l with
    | nil => simp [hasPrefixL] at h
    | cons c cs =>
      simp only [hasPrefixL, Bool.and_eq_true, decide_eq_true_eq] at h
      intro a ha
      rcases List.mem_cons.1 ha with rfl | ha
      · exact h.1 ▸ List.mem_cons_self _ _
      · exact List.mem_cons_of_mem _ (ih h.2 a ha)

lemma stripSchemeL_http (r : List Char) :
    stripSchemeL (['h','t','t','p',':','/','/'] ++ r) = r := by
  show stripSchemeL ("http://".data ++ r) = r
  have h1 : hasPrefixL ("http://".data ++ r) "http://".data = true :=
    hasPrefixL_append _ _
  unfold stripSchemeL
  rw [h1]
  simp

lemma stripSchemeL_https (r : List Char) :
    stripSchemeL (['h','t','t','p','s',':','/','/'] ++ r) = r := by
  show stripSchemeL ("https://".data ++ r) = r
  have h0 : hasPrefixL ("https://".data ++ r) "http://".data = false := by
    simp [hasPrefixL]
  have h1 : hasPrefixL ("https://".data ++ r) "https://".data = true :=
    hasPrefixL_append _ _
  unfold stripSchemeL
  rw [h0, h1]
  simp

lemma splitN2Slash_rebuild (t : List Char) :
    (match splitN2Slash t with
     | (h, none) => (h, ([] : List Char))
     | (h, some rest) => (h, '/' :: rest)) =
      (t.takeWhile (fun c => c != '/'), t.dropWhile (fun c => c != '/')) := by
  induction t with
  | nil => rfl
  | cons c cs ih =>
    by_cases hc : c = '/'
    · subst hc
      simp [splitN2Slash]
    · cases hsp : splitN2Slash cs with
      | mk h o =>
        rw [hsp] at ih
        simp only [splitN2Slash, if_neg hc, hsp]
        cases o with
        | none =>
          simp only [Prod.mk.injEq] at ih ⊢
          simp [List.takeWhile_cons, List.dropWhile_cons, hc, ih.1, ih.2.symm]
        | some rest =>
          simp only [Prod.mk.injEq] at ih ⊢
          simp [List.takeWhile_cons, List.dropWhile_cons, hc, ih.1, ih.2.symm]

lemma parseEndpointL_eq (l : List Char) :
    parseEndpointL l =
      ((stripSchemeL l).takeWhile (fun c => c != '/'),
       (stripSchemeL l).dropWhile (fun c => c != '/')) := by
  have := splitN2Slash_rebuild (stripSchemeL l)
  unfold parseEndpointL
  exact this



lemma dropWhile_head_false (p : Char → Bool) (l : List Char) :
    l.dropWhile p = [] ∨ ∃ c cs, l.dropWhile p = c :: cs ∧ p c = false := by
  induction l with
  | nil => left; rfl
  | cons c cs ih =>
    by_cases h : p c
    · simpa [List.dropWhile_cons, h] using ih
    · right
      exact ⟨c, cs, by simp [List.dropWhile_cons, h], by simpa using h⟩

lemma parseEndpoint_eq (s : String) :
    parseEndpoint s =
      (⟨(stripSchemeL s.data).takeWhile (fun c => c != '/')⟩,
       ⟨(stripSchemeL s.data).dropWhile (fun c => c != '/')⟩) := by
  unfold parseEndpoint
  rw [parseEndpointL_eq]

lemma parseEndpoint_no_slash (s : String) (hs : ('/' : Char) ∉ (stripScheme s).data) :
    parseEndpoint s = (stripScheme s, "") := by
  rw [parseEndpoint_eq]
  have h1 : ∀ a ∈ (stripScheme s).data, (a != '/') = true := by
    intro a ha
    simp only [bne_iff_ne, ne_eq]
    rintro rfl
    exact hs ha
  have h2 : (stripSchemeL s.data).takeWhile (fun c => c != '/') = stripSchemeL s.data :=
    List.takeWhile_eq_self_iff.2 h1
  have h3 : (stripSchemeL s.data).dropWhile (fun c => c != '/') = [] :=
    List.dropWhile_eq_nil_iff.2 h1
  rw [h2, h3]
  rfl

/-- C5: for scheme-prefixed endpoints, `parseEndpoint` strips the scheme
and splits the remainder at the first `/` (`hostPort` before it, `path`
the `/`-prefixed remainder); with no `/` after stripping, `path` is empty
and `hostPort` is the whole remaining string; including the spec's two
concrete examples. -/
theorem parseEndpoint_scheme_split :
    (∀ r : String, parseEndpoint ("http://" ++ r) =
      (⟨r.data.takeWhile (fun c => c != '/')⟩, ⟨r.data.dropWhile (fun c => c != '/')⟩)) ∧
    (∀ r : String, parseEndpoint ("https://" ++ r) =
      (⟨r.data.takeWhile (fun c => c != '/')⟩, ⟨r.data.dropWhile (fun c => c != '/')⟩)) ∧
    (∀ s : String, ('/' : Char) ∉ (stripScheme s).data →
      parseEndpoint s = (stripScheme s, "")) ∧
    parseEndpoint "http://collector:4318/v1/logs" = ("collector:4318", "/v1/logs") ∧
    parseEndpoint "collector:4318" = ("collector:4318", "") := by
  refine ⟨fun r => ?_, fun r => ?_, fun s hs => parseEndpoint_no_slash s hs,
    by decide, by decide⟩
  · rw [parseEndpoint_eq]
    simp only [String.data_append]
    rw [stripSchemeL_http]
  · rw [parseEndpoint_eq]
    simp only [String.data_append]
    rw [stripSchemeL_https]

theorem parseEndpoint_scheme_split_witness :
    ('/' : Char) ∉ (stripScheme "collector:4318").data ∧
    parseEndpoint ("http://" ++ "collector:4318/v1/logs") =
      (⟨("collector:4318/v1/logs" : String).data.takeWhile (fun c => c != '/')⟩,
       ⟨("collector:4318/v1/logs" : String).data.dropWhile (fun c => c != '/')⟩) ∧
    parseEndpoint "collector:4318" = (stripScheme "collector:4318", "") :=
  ⟨by decide, parseEndpoint_scheme_split.1 "collector:4318/v1/logs",
    parseEndpoint_scheme_split.2.2.1 "collector:4318" (by decide)⟩

/-- C6 counterexample: `"a/b"` is malformed (it is neither `host:port`
nor scheme-prefixed), yet `parseEndpoint` does not degrade to
`(whole string, "")`: it still splits at the first `/`. -/
theorem parseEndpoint_malformed_counterexample :
    parseEndpoint "a/b" = ("a", "/b") ∧ parseEndpoint "a/b" ≠ ("a/b", "") := by
  decide

/-- C6 (amended): `parseEndpoint` is a total function with no error
condition; an input with no `/` left after scheme stripping degrades to
`hostPort` = the whole (scheme-stripped) input and `path = ""`; an input
that still contains a `/` is split at its first `/` even when malformed. -/
theorem parseEndpoint_no_error (s : String) :
    parseEndpoint s =
      (⟨(stripSchemeL s.data).takeWhile (fun c => c != '/')⟩,
       ⟨(stripSchemeL s.data).dropWhile (fun c => c != '/')⟩) ∧
    (('/' : Char) ∉ (stripScheme s).data → parseEndpoint s = (stripScheme s, "")) :=
  ⟨parseEndpoint_eq s, parseEndpoint_no_slash s⟩

theorem parseEndpoint_no_error_witness :
    ('/' : Char) ∉ (stripScheme "collector:4318@@").data ∧
    parseEndpoint "collector:4318@@" = (stripScheme "collector:4318@@", "") :=
  ⟨by decide, (parseEndpoint_no_error "collector:4318@@").2 (by decide)⟩

/-- C7: for every input, the `hostPort` produced by `parseEndpoint`
contains no `/` (hence no scheme prefix and no path segment), and the
produced `path` is either empty or begins with `/`. -/
theorem parseEndpoint_invariant (s : String) :
    ('/' : Char) ∉ (parseEndpoint s).1.data ∧
    hasPrefixL (parseEndpoint s).1.data "http://".data = false ∧
    hasPrefixL (parseEndpoint s).1.data "https://".data = false ∧
    ((parseEndpoint s).2 = "" ∨ hasPrefixL (parseEndpoint s).2.data "/".data = true) := by
  rw [parseEndpoint_eq]
  refine ⟨?_, ?_, ?_, ?_⟩
  · intro hmem
    have := List.mem_takeWhile_imp hmem
    simp at this
  · by_contra hpre
    have hpre' : hasPrefixL ((stripSchemeL s.data).takeWhile (fun c => c != '/'))
        "http://".data = true := by
      revert hpre
      cases hasPrefixL ((stripSchemeL s.data).takeWhile (fun c => c != '/')) "http://".data
      · simp
      · simp
    have hm : ('/' : Char) ∈ (stripSchemeL s.data).takeWhile (fun c => c != '/') :=
      hasPrefixL_mem hpre' '/' (by decide)
    have := List.mem_takeWhile_imp hm
    simp at this
  · by_contra hpre
    have hpre' : hasPrefixL ((stripSchemeL s.data).takeWhile (fun c => c != '/'))
        "https://".data = true := by
      revert hpre
      cases hasPrefixL ((stripSchemeL s.data).takeWhile (fun c => c != '/')) "https://".data
      · simp
      · simp
    have hm : ('/' : Char) ∈ (stripSchemeL s.data).takeWhile (fun c => c != '/') :=
      hasPrefixL_mem hpre' '/' (by decide)
    have := List.mem_takeWhile_imp hm
    simp at this
  · rcases dropWhile_head_false (fun c => c != '/') (stripSchemeL s.data) with h | ⟨c, cs, h, hc⟩
    · left
      simp [h]
    · right
      have : c = '/' := by simpa using hc
      subst this
      simp [h, hasPrefixL]

end LogGenie

namespace LogGenie

lemma sendLog_not_enabled_eq (p : ProviderState) (now : Int) (level message : String)
    (fields : List (String × GoValue)) (h : p.enabled = false ∨ p.logger = none) :
    SendLog p now level message fields = (p, Except.error notEnabledMsg) := by
  have hcond : (!p.enabled || !p.logger.isSome) = true := by
    rcases h with h | h <;> simp [h]
  unfold SendLog
  rw [hcond]
  simp

lemma sendLog_enabled_eq (p : ProviderState) (now : Int) (level message : String)
    (fields : List (String × GoValue)) (he : p.enabled = true) (hl : p.logger = some ()) :
    SendLog p now level message fields =
      ({ p with logCount := p.logCount + 1 },
       Except.ok { timestamp := now, severity := severityFor level, severityText := level,
                   body := message,
                   attributes := fields.map fun kv => convertField kv.1 kv.2 }) := by
  have hcond : (!p.enabled || !p.logger.isSome) = false := by
    simp [he, hl]
  unfold SendLog
  rw [hcond]
  simp

end LogGenie

namespace LogGenie

/-- C1: `SendLog` on a disabled Provider (or one whose logger is
uninitialized) returns the not-enabled error and leaves the state — in
particular the log counter read by `GetLogCount` — unchanged. -/
theorem sendLog_disabled (p : ProviderState) (now : Int) (level message : String)
    (fields : List (String × GoValue))
    (h : p.enabled = false ∨ p.logger = none) :
    (SendLog p now level message fields).2 = Except.error notEnabledMsg ∧
    (SendLog p now level message fields).1 = p ∧
    GetLogCount (SendLog p now level message fields).1 = GetLogCount p := by
  rw [sendLog_not_enabled_eq p now level message fields h]
  exact ⟨rfl, rfl, rfl⟩

theorem sendLog_disabled_witness :
    (disabledP.enabled = false ∨ disabledP.logger = none) ∧
    ((SendLog disabledP 0 "info" "hello" []).2 = Except.error notEnabledMsg ∧
     (SendLog disabledP 0 "info" "hello" []).1 = disabledP ∧
     GetLogCount (SendLog disabledP 0 "info" "hello" []).1 = GetLogCount disabledP) :=
  ⟨Or.inl (by decide), sendLog_disabled disabledP 0 "info" "hello" [] (Or.inl (by decide))⟩

end LogGenie

namespace LogGenie

/-- C8: on a successful `SendLog`, every attribute map entry of type
string / int / int64 / float64 / bool becomes the attribute of the
corresponding OTel typed constructor, and an entry of any other type
becomes a string attribute holding the value's string representation;
the record carries exactly the converted entries. -/
theorem sendLog_field_conversion (p : ProviderState) (now : Int)
    (level message : String) (fields : List (String × GoValue))
    (he : p.enabled = true) (hl : p.logger = some ()) :
    (∃ r : LogRecord,
      (SendLog p now level message fields).2 = Except.ok r ∧
      r.attributes = fields.map fun kv => convertField kv.1 kv.2) ∧
    (∀ k s, convertField k (.str s) = logStringKV k s) ∧
    (∀ k n, convertField k (.int n) = logIntKV k n) ∧
    (∀ k n, convertField k (.int64 n) = logInt64KV k n) ∧
    (∀ k f, convertField k (.float64 f) = logFloat64KV k f) ∧
    (∀ k b, convertField k (.bool b) = logBoolKV k b) ∧
    (∀ k rendered, convertField k (.other rendered) = logStringKV k rendered) := by
  rw [sendLog_enabled_eq p now level message fields he hl]
  exact ⟨⟨_, rfl, rfl⟩, fun _ _ => rfl, fun _ _ => rfl, fun _ _ => rfl,
    fun _ _ => rfl, fun _ _ => rfl, fun _ _ => rfl⟩

theorem sendLog_field_conversion_witness :
    enabledP.enabled = true ∧ enabledP.logger = some () ∧
    (∃ r : LogRecord,
      (SendLog enabledP 0 "info" "m"
        [("a", .str "x"), ("b", .int 1), ("c", .int64 2),
         ("d", .float64 ⟨7⟩), ("e", .bool true), ("f", .other "[1 2]")]).2 = Except.ok r ∧
      r.attributes =
        [("a", GoValue.str "x"), ("b", .int 1), ("c", .int64 2),
         ("d", .float64 ⟨7⟩), ("e", .bool true), ("f", .other "[1 2]")].map
          fun kv => convertField kv.1 kv.2) :=
  ⟨by decide, by decide,
    (sendLog_field_conversion enabledP 0 "info" "m"
      [("a", .str "x"), ("b", .int 1), ("c", .int64 2),
       ("d", .float64 ⟨7⟩), ("e", .bool true), ("f", .other "[1 2]")]
      (by decide) (by decide)).1⟩

/-- C9: `SendLog` on an enabled Provider with a level that is none of
the four defined constants still succeeds and increments the counter;
the record's `severityText` is the level string verbatim and its numeric
severity is the zero value 0 (the severity switch has no default). -/
theorem sendLog_unknown_level (p : ProviderState) (now : Int)
    (level message : String) (fields : List (String × GoValue))
    (he : p.enabled = true) (hl : p.logger = some ())
    (h1 : level ≠ "debug") (h2 : level ≠ "info") (h3 : level ≠ "warn")
    (h4 : level ≠ "error") :
    (SendLog p now level message fields).2 = Except.ok
      { timestamp := now, severity := 0, severityText := level, body := message,
        attributes := fields.map fun kv => convertField kv.1 kv.2 } ∧
    (SendLog p now level message fields).1.logCount = p.logCount + 1 := by
  rw [sendLog_enabled_eq p now level message fields he hl]
  have hs : severityFor level = 0 := by
    simp [severityFor, h1, h2, h3, h4]
  exact ⟨by rw [hs], rfl⟩

theorem sendLog_unknown_level_witness :
    enabledP.enabled = true ∧ enabledP.logger = some () ∧
    ("fatal" : String) ≠ "debug" ∧ ("fatal" : String) ≠ "info" ∧
    ("fatal" : String) ≠ "warn" ∧ ("fatal" : String) ≠ "error" ∧
    ((SendLog enabledP 0 "fatal" "boom" []).2 = Except.ok
      { timestamp := 0, severity := 0, severityText := "fatal", body := "boom",
        attributes := [] } ∧
     (SendLog enabledP 0 "fatal" "boom" []).1.logCount = enabledP.logCount + 1) :=
  ⟨by decide, by decide, by decide, by decide, by decide, by decide,
    sendLog_unknown_level enabledP 0 "fatal" "boom" [] (by decide) (by decide)
      (by decide) (by decide) (by decide) (by decide)⟩

/-- C3 counterexample: at a tick where the elapsed time since
`lastReport` is zero, the loop body neither emits an observation nor
resets the counter — so "with no precondition on the elapsed time" fails
on the code, which guards the report with `elapsed > 0`. -/
theorem reportTick_counterexample :
    reportTick reportExState 10 = (reportExState, none) ∧
    reportExState.logCount = 5 ∧
    (reportTick reportExState 10).1.logCount = 5 ∧
    (reportTick reportExState 10).2 = none := by
  have h : reportTick reportExState 10 = (reportExState, none) := by
    simp [reportTick, reportExState]
  exact ⟨h, rfl, by rw [h]; rfl, by rw [h]⟩

/-- C3 (amended): on a tick at instant `now`, if `now` is later than
`lastReport` (the code's `elapsed > 0` guard), the loop reads the
counter, surfaces the `{count, elapsedSeconds, rate}` observation with
`rate = count / elapsedSeconds` (regardless of the counter value,
including 0), stores 0 into the counter and sets `lastReport := now`;
otherwise the tick leaves the state unchanged and emits nothing. -/
theorem reportTick_spec (p : ProviderState) (now : Int) :
    reportTick p now =
      if p.lastReport < now then
        ({ p with logCount := 0, lastReport := now },
         some { count := p.logCount,
                elapsedSeconds := ((now - p.lastReport : Int) : ℚ) / 1000000000,
                rate := (p.logCount : ℚ) /
                  (((now - p.lastReport : Int) : ℚ) / 1000000000) })
      else (p, none) := by
  by_cases h : p.lastReport < now
  · have hpos : (0 : ℚ) < ((now - p.lastReport : Int) : ℚ) / 1000000000 := by
      apply div_pos
      · exact_mod_cast sub_pos.2 h
      · norm_num
    rw [if_pos h]
    simp only [reportTick]
    rw [if_pos hpos]
  · have hnonpos : ((now - p.lastReport : Int) : ℚ) / 1000000000 ≤ 0 := by
      apply div_nonpos_of_nonpos_of_nonneg
      · exact_mod_cast sub_nonpos.2 (not_lt.1 h)
      · norm_num
    rw [if_neg h]
    simp only [reportTick]
    rw [if_neg (not_lt.2 hnonpos)]

end LogGenie

namespace LogGenie

lemma shutdown_eq_pure (p : ProviderState) :
    Shutdown p = Except.ok (shutdownPure p) := by
  unfold Shutdown shutdownPure
  cases hc : p.cancel with
  | none =>
    simp only [hc, Option.isSome_none, Bool.false_eq_true, if_false]
    cases hlp : p.logProvider with
    | none => simp [hlp]
    | some lp => cases hst : lp.stopped <;> simp [hlp, hst]
  | some u =>
    simp only [hc, Option.isSome_some, if_true]
    cases hlp : p.logProvider with
    | none => simp [hlp]
    | some lp => cases hst : lp.stopped <;> simp [hlp, hst]

lemma shutdownPure_idem (p : ProviderState) :
    shutdownPure (shutdownPure p) = shutdownPure p := by
  unfold shutdownPure
  cases hc : p.cancel with
  | none =>
    cases hlp : p.logProvider with
    | none => simp [hc, hlp]
    | some lp => cases hst : lp.stopped <;> simp [hc, hlp, hst]
  | some u =>
    cases hlp : p.logProvider with
    | none => simp [hc, hlp]
    | some lp => cases hst : lp.stopped <;> simp [hc, hlp, hst]

lemma shutdownPure_count (p : ProviderState) :
    (shutdownPure p).exporterShutdownCount ≤ p.exporterShutdownCount + 1 := by
  unfold shutdownPure
  cases hc : p.cancel with
  | none =>
    cases hlp : p.logProvider with
    | none => simp [hc, hlp]
    | some lp => cases hst : lp.stopped <;> simp [hc, hlp, hst]
  | some u =>
    cases hlp : p.logProvider with
    | none => simp [hc, hlp]
    | some lp => cases hst : lp.stopped <;> simp [hc, hlp, hst]

lemma shutdownPure_cancelled (p : ProviderState) :
    (shutdownPure p).ctxCancelled = (p.ctxCancelled || p.cancel.isSome) := by
  unfold shutdownPure
  cases hc : p.cancel with
  | none =>
    cases hlp : p.logProvider with
    | none => simp [hc, hlp]
    | some lp => cases hst : lp.stopped <;> simp [hc, hlp, hst]
  | some u =>
    cases hlp : p.logProvider with
    | none => simp [hc, hlp]
    | some lp => cases hst : lp.stopped <;> simp [hc, hlp, hst]

/-- C4: `Shutdown` is idempotent: every call returns without panicking,
a second call leaves exactly the state of the first (same observable
Provider state), the underlying transport is closed at most once across
both calls, and each call cancels the shared context (when one exists)
before the processor's final flush. -/
theorem shutdown_idempotent (p : ProviderState) :
    ∃ q : ProviderState,
      Shutdown p = Except.ok q ∧
      Shutdown q = Except.ok q ∧
      q.exporterShutdownCount ≤ p.exporterShutdownCount + 1 ∧
      q.ctxCancelled = (p.ctxCancelled || p.cancel.isSome) := by
  refine ⟨shutdownPure p, shutdown_eq_pure p, ?_, shutdownPure_count p,
    shutdownPure_cancelled p⟩
  rw [shutdown_eq_pure (shutdownPure p), shutdownPure_idem p]

/-- C10: constructing a Provider with `Enabled = false` returns before
the cancellation context and log provider are created, so both `cancel`
and `logProvider` are `nil`; `Shutdown` on such a Provider skips both
branches and returns without panicking, leaving the state unchanged. -/
theorem shutdown_disabled_noop (cfg : Config) (h : cfg.Enabled = false) :
    (NewProvider cfg).cancel = none ∧
    (NewProvider cfg).logProvider = none ∧
    Shutdown (NewProvider cfg) = Except.ok (NewProvider cfg) := by
  have hcancel : (NewProvider cfg).cancel = none := by simp [NewProvider, h]
  have hlp : (NewProvider cfg).logProvider = none := by simp [NewProvider, h]
  refine ⟨hcancel, hlp, ?_⟩
  unfold Shutdown
  simp [hcancel, hlp]

theorem shutdown_disabled_noop_witness :
    (⟨false, "collector:4318", false⟩ : Config).Enabled = false ∧
    ((NewProvider ⟨false, "collector:4318", false⟩).cancel = none ∧
     (NewProvider ⟨false, "collector:4318", false⟩).logProvider = none ∧
     Shutdown (NewProvider ⟨false, "collector:4318", false⟩) =
       Except.ok (NewProvider ⟨false, "collector:4318", false⟩)) :=
  ⟨rfl, shutdown_disabled_noop ⟨false, "collector:4318", false⟩ rfl⟩

end LogGenie
